import Mathlib

/-!
Shallow embedding of the serde-google-sheets decoding engine (src/de.rs,
src/error.rs) and proofs of the specification claims about it.

The grid data model mirrors the subset of the google_sheets4 API types that
the decoder reads (`GridData`, `RowData`, `CellData`, `ExtendedValue`,
`CellFormat`, `NumberFormat`).  Rust `panic!`/`expect` is modelled by an
explicit `RResult.panicked` constructor so that panics are distinguishable
from values of the error taxonomy.  `usize` arithmetic is modelled with
release-mode wrapping semantics (reduction modulo 2^64 where underflow can
occur).
-/

namespace SerdeSheets

/-- Model of google_sheets4 `ErrorValue`; the decoder only ever tests its
presence, never reads its fields. -/
structure ErrorValue where
  type_ : Option String
  message : Option String

/-- Model of google_sheets4 `ExtendedValue`: the raw typed value of a cell. -/
structure ExtendedValue where
  bool_value : Option Bool
  error_value : Option ErrorValue
  formula_value : Option String
  number_value : Option Float
  string_value : Option String

/-- Model of google_sheets4 `NumberFormat` (only `type_` is read). -/
structure NumberFormat where
  pattern : Option String
  type_ : Option String

/-- Model of google_sheets4 `CellFormat` (only `number_format` is read). -/
structure CellFormat where
  number_format : Option NumberFormat

/-- Model of google_sheets4 `CellData`, restricted to the fields the decoder
reads: `effective_value`, `formatted_value`, `effective_format`. -/
structure CellData where
  effective_value : Option ExtendedValue
  formatted_value : Option String
  effective_format : Option CellFormat

/-- Model of google_sheets4 `RowData`. -/
structure RowData where
  values : Option (List CellData)

/-- Model of google_sheets4 `GridData`, restricted to `row_data`. -/
structure GridData where
  row_data : Option (List RowData)

/-- The error taxonomy of src/error.rs (the `GoogleSheetsError` payload is
external and never inspected by the decoder, so it is modelled without it). -/
inductive Error where
  | GoogleSheetsError
  | MissingSheet
  | NotGridSheet
  | ZeroRows
  | HeaderMustBeString
  | MissingValue (ctx : String)
  | NotNumber (s : Option String)
  | NotBool
  | Message (msg : String)
  | Eof
deriving DecidableEq

/-- Result of running a piece of the Rust decoder: a value, an `Error`, or a
panic (from `expect`), which is not part of the error taxonomy. -/
inductive RResult (α : Type) where
  | panicked (msg : String)
  | error (e : Error)
  | ok (a : α)

def RResult.bind {α β : Type} : RResult α → (α → RResult β) → RResult β
  | .panicked m, _ => .panicked m
  | .error e, _ => .error e
  | .ok a, f => f a

def RResult.map {α β : Type} (f : α → β) : RResult α → RResult β
  | .panicked m => .panicked m
  | .error e => .error e
  | .ok a => .ok (f a)

/-- The state of `Deserializer` in src/de.rs.  `rows` is the list of rows not
yet consumed by the peekable iterator (its head is the current row); `types`
is the smallmap built from the header row, which maps the column index `i`
(a key that is always in range `0 ≤ i < types.length` by construction) to the
header cell's optional formatted text, so it is modelled as a list indexed by
position. -/
structure Deserializer where
  rows : List RowData
  types : List (Option String)
  key_idx : Option Nat
  row_idx : Nat
  cur_type : Option String
  parsing_enum : Bool

/-- Abstraction of the Rust `format!` context string attached to
`Error::MissingValue` (the Rust code renders `key_idx`, `row_idx`, the peeked
cell and the header map with `Debug`; no claim inspects this text, so only
the cursor position is rendered). -/
def ctxString (d : Deserializer) : String :=
  "Key idx: " ++ (match d.key_idx with
    | none => "None"
    | some i => "Some(" ++ toString i ++ ")")
    ++ ", Row idx " ++ toString d.row_idx

/-- Peeking the row iterator: `rows.peek()` forces the pending
`v.values.as_deref().expect("Values should be set")` closure of the `map`
iterator built in `from_grid_data`, so a row whose `values` field is absent
panics here. -/
def peekRow (d : Deserializer) : RResult (Option (List CellData)) :=
  match d.rows.head? with
  | none => .ok none
  | some r =>
    match r.values with
    | none => .panicked "Values should be set"
    | some vs => .ok (some vs)

/-- `Deserializer::get_cur_row_data`: peeks the current row and `expect`s it
to exist. -/
def get_cur_row_data (d : Deserializer) : RResult (List CellData) :=
  (peekRow d).bind fun o =>
    match o with
    | none => .panicked "Need current row data with no selected row"
    | some vs => .ok vs

/-- `Deserializer::get_cur_cell_data`: `key_idx.and_then(|idx| row.get(idx))`.
When `key_idx` is `None` the row is never touched (Rust `and_then`
short-circuits). -/
def get_cur_cell_data (d : Deserializer) : RResult (Option CellData) :=
  match d.key_idx with
  | none => .ok none
  | some idx => (get_cur_row_data d).map (fun row => row[idx]?)

/-- `Deserializer::get_cur_effective_value`. -/
def get_cur_effective_value (d : Deserializer) : RResult (Option ExtendedValue) :=
  (get_cur_cell_data d).map (fun oc => oc.bind (fun c => c.effective_value))

/-- `Deserializer::deserialize_formatted_value`: the current cell's
`formatted_value`, or `MissingValue` when the cell or its text is absent. -/
def deserialize_formatted_value (d : Deserializer) : RResult String :=
  (get_cur_cell_data d).bind fun oc =>
    match oc with
    | none => .error (.MissingValue (ctxString d))
    | some cell =>
      match cell.formatted_value with
      | none => .error (.MissingValue (ctxString d))
      | some s => .ok s

/-- Wrapping (release-mode) `usize` subtraction of one, used to model the
`self.types.len() - 1` bound of the header scan loop, which underflows when
the header row is empty. -/
def usizeSub1 (n : Nat) : Nat := (n + (2 ^ 64 - 1)) % 2 ^ 64

/-- Structural simulation of the `while` loop of
`Deserializer::next_key_seed`: advance `i` while
`types.get(&i).map(|v| v.is_some()).is_none()` (note: this tests only that
`i` is absent from the map, not that the header cell is unnamed) and
`i < bound`.  The loop body only increments `i`, so `bound - i + 1` steps of
fuel make `scanIdx` extensionally equal to the loop (the fuel can only run
out once `i ≥ bound`, where the loop condition is false anyway; see
`scanLoop_stops`). -/
def scanLoop (types : List (Option String)) (bound : Nat) : Nat → Nat → Nat
  | 0, i => i
  | fuel + 1, i =>
    if (types[i]?).isNone = true ∧ i < bound then
      scanLoop types bound fuel (i + 1)
    else
      i

/-- The index at which the `next_key_seed` scan loop stops, starting at `i`
with bound `bound`. -/
def scanIdx (types : List (Option String)) (bound i : Nat) : Nat :=
  scanLoop types bound (bound - i + 1) i

/-- The setup phase of `from_grid_data` (src/de.rs lines 58-87): require
`row_data`, take the first row as the header (its `values` closure is forced
here, so an absent header cell list panics), and build the header map `types`
from the `formatted_value` of each header cell.  The subsequent
`T::deserialize(&mut deserializer)` call is modelled by the individual
protocol operations below, applied to the returned state. -/
def from_grid_data_init (g : GridData) : RResult Deserializer :=
  match g.row_data with
  | none => .error .ZeroRows
  | some rows =>
    match rows with
    | [] => .error .ZeroRows
    | r0 :: rest =>
      match r0.values with
      | none => .panicked "Values should be set"
      | some hdr =>
        .ok { rows := rest
              types := hdr.map (fun c => c.formatted_value)
              key_idx := none
              row_idx := 1
              cur_type := none
              parsing_enum := false }

/-- Which visitor method `deserialize_option` invokes. -/
inductive OptOutcome where
  | visitNone
  | visitSome
deriving DecidableEq

/-- `deserialize_option` (src/de.rs lines 350-371).  `visitSome` stands for
`visitor.visit_some(self)`: the same deserializer state is re-offered, hence
the unchanged state in the result. -/
def deserialize_option (d : Deserializer) : RResult (OptOutcome × Deserializer) :=
  match d.key_idx with
  | none =>
    (get_cur_row_data d).bind fun row =>
      if row.foldl (fun acc c => acc && c.effective_value.isNone) true = true then
        .ok (.visitNone, d)
      else
        .ok (.visitSome, d)
  | some _ =>
    (get_cur_effective_value d).bind fun oev =>
      if oev.isSome = true then
        .ok (.visitSome, d)
      else
        .ok (.visitNone, d)

/-- Which visitor method `deserialize_any` invokes. -/
inductive AnyOutcome where
  | visitNone
  | visitSomeRow
  | visitBool (b : Bool)
  | visitStr (s : String)
  | visitF64 (v : Float)

/-- `deserialize_any` (src/de.rs lines 172-225): at row granularity it
mirrors `deserialize_option`; at cell granularity it applies the cell
interpreter's precedence over the `ExtendedValue` fields, with the
DATE/TIME/DATE_TIME number-format check on the numeric branch. -/
def deserialize_any (d : Deserializer) : RResult (AnyOutcome × Deserializer) :=
  match d.key_idx with
  | none =>
    (get_cur_row_data d).bind fun row =>
      if row.foldl (fun acc c => acc && c.effective_value.isNone) true = true then
        .ok (.visitNone, d)
      else
        .ok (.visitSomeRow, d)
  | some _ =>
    (get_cur_effective_value d).bind fun oev =>
      match oev with
      | none => .ok (.visitNone, d)
      | some ev =>
        match ev.bool_value with
        | some b => .ok (.visitBool b, d)
        | none =>
          match ev.error_value with
          | some _ => (deserialize_formatted_value d).map (fun s => (.visitStr s, d))
          | none =>
            match ev.formula_value with
            | some _ => (deserialize_formatted_value d).map (fun s => (.visitStr s, d))
            | none =>
              match ev.number_value with
              | some v =>
                (get_cur_cell_data d).bind fun oc =>
                  match ((oc.bind (fun c => c.effective_format)).bind
                      (fun f => f.number_format)).bind (fun nf => nf.type_) with
                  | some t =>
                    if t = "DATE" ∨ t = "TIME" ∨ t = "DATE_TIME" then
                      (deserialize_formatted_value d).map (fun s => (.visitStr s, d))
                    else
                      .ok (.visitF64 v, d)
                  | none => .ok (.visitF64 v, d)
              | none =>
                match ev.string_value with
                | some s => .ok (.visitStr s, d)
                | none => .ok (.visitNone, d)

/-- Marker for `visitor.visit_unit()`. -/
inductive UnitOutcome where
  | visitUnit
deriving DecidableEq

/-- `deserialize_unit` (src/de.rs lines 373-381): visits unit when the
current effective value (of the cell addressed by `key_idx`) is absent, and
fails with `ZeroRows` when it is present. -/
def deserialize_unit (d : Deserializer) : RResult (UnitOutcome × Deserializer) :=
  (get_cur_effective_value d).bind fun oev =>
    match oev with
    | none => .ok (.visitUnit, d)
    | some _ => .error .ZeroRows

/-- `deserialize_identifier` (src/de.rs lines 455-481): when resolving an
enum tag, read the current cell's formatted text; otherwise return the field
name stashed in `cur_type`. -/
def deserialize_identifier (d : Deserializer) : RResult (String × Deserializer) :=
  if d.parsing_enum = true then
    (get_cur_cell_data d).bind fun oc =>
      match oc.bind (fun c => c.formatted_value) with
      | none => .error (.MissingValue (ctxString d))
      | some s => .ok (s, d)
  else
    match d.cur_type with
    | none => .error (.MissingValue (ctxString d))
    | some s => .ok (s, d)

/-- The starting index of the `next_key_seed` scan:
`match self.key_idx { None => 0, Some(i) => i + 1 }`. -/
def nextKeyStart (d : Deserializer) : Nat :=
  match d.key_idx with
  | none => 0
  | some i => i + 1

/-- `MapAccess::next_key_seed` (src/de.rs lines 497-525), with the key seed
taken to be the struct field-identifier seed, which calls
`deserialize_identifier` on the mutated deserializer (as the derived serde
record decoding does). -/
def next_key_seed (d : Deserializer) : RResult (Option String × Deserializer) :=
  let new_idx : Nat := scanIdx d.types (usizeSub1 d.types.length) (nextKeyStart d)
  (get_cur_row_data d).bind fun row =>
    if new_idx ≥ row.length then
      .ok (none, d)
    else
      match d.types[new_idx]? with
      | some (some v) =>
        let d' : Deserializer := { d with key_idx := some new_idx, cur_type := some v }
        (deserialize_identifier d').map (fun p => (some p.1, p.2))
      | _ => .ok (none, d)

/-- `SeqAccess::next_element_seed` (src/de.rs lines 541-558), parameterized
by the element seed `elem` (the decode of one element, which may transform
the deserializer state).  On a present row the key/type cursor is reset, the
element is decoded, and the row iterator is advanced; after the last row it
reports end-of-sequence.  When the element decode fails the Rust code still
advances the iterator before returning the error, which an error result
absorbs. -/
def next_element_seed {α : Type} (elem : Deserializer → RResult (α × Deserializer))
    (d : Deserializer) : RResult (Option α × Deserializer) :=
  (peekRow d).bind fun o =>
    match o with
    | none => .ok (none, d)
    | some _ =>
      match elem { d with key_idx := none, cur_type := none } with
      | .panicked m => .panicked m
      | .error e => .error e
      | .ok (a, d2) =>
        .ok (some a, { d2 with rows := d2.rows.drop 1, row_idx := d2.row_idx + 1 })

/-- The generic driver that the serde `Vec` visitor runs over `next_element_seed`:
collect elements until end-of-sequence.  `fuel` is a totality bound; every
claim instantiates it above the number of remaining rows. -/
def driveSeq {α : Type} (elem : Deserializer → RResult (α × Deserializer)) :
    Nat → Deserializer → RResult (List α × Deserializer)
  | 0, d => .ok ([], d)
  | fuel + 1, d =>
    match next_element_seed elem d with
    | .panicked m => .panicked m
    | .error e => .error e
    | .ok (none, d') => .ok ([], d')
    | .ok (some a, d') =>
      match driveSeq elem fuel d' with
      | .panicked m => .panicked m
      | .error e => .error e
      | .ok (l, d2) => .ok (a :: l, d2)

/-- The key half of the serde map visitor: collect the keys yielded by
successive `next_key_seed` calls until it reports no more keys. -/
def decodeKeys : Nat → Deserializer → RResult (List String × Deserializer)
  | 0, d => .ok ([], d)
  | fuel + 1, d =>
    match next_key_seed d with
    | .panicked m => .panicked m
    | .error e => .error e
    | .ok (none, d') => .ok ([], d')
    | .ok (some k, d') =>
      match decodeKeys fuel d' with
      | .panicked m => .panicked m
      | .error e => .error e
      | .ok (l, d2) => .ok (k :: l, d2)

/-- The whole record-key trace of a grid: run the setup phase, then collect
the keys of the record decode of the first data row. -/
def keysOf (g : GridData) (fuel : Nat) : RResult (List String) :=
  (from_grid_data_init g).bind fun d => (decodeKeys fuel d).map (fun p => p.1)

/-- `Enum::variant_seed` (src/de.rs lines 589-598) with the variant-tag seed
taken to be the enum identifier seed: toggles `parsing_enum` around
`deserialize_identifier`. -/
def variant_seed (d : Deserializer) : RResult (String × Deserializer) :=
  match deserialize_identifier { d with parsing_enum := true } with
  | .panicked m => .panicked m
  | .error e => .error e
  | .ok (s, d') => .ok (s, { d' with parsing_enum := false })

/-- `VariantAccess::unit_variant` (src/de.rs line 607). -/
def unit_variant (_d : Deserializer) : RResult Unit := .ok ()

/-- `VariantAccess::tuple_variant` (src/de.rs lines 618-623): always the
catch-all custom error; the visitor is never invoked. -/
def tuple_variant (_d : Deserializer) : RResult Unit :=
  .error (.Message "Tuple variant not supported")

/-- `VariantAccess::struct_variant` (src/de.rs lines 625-630): always the
catch-all custom error; the visitor is never invoked. -/
def struct_variant (_d : Deserializer) : RResult Unit :=
  .error (.Message "Struct variant not supported")

/-! Concrete sample data, mirroring the `string_cell`/`grid_data` test
helpers of src/de.rs, used by counterexamples and witnesses. -/

/-- A populated text cell, as built by the `string_cell` test
helper. -/
def strCell (s : String) : CellData :=
  { effective_value := some
      { bool_value := none
        error_value := none
        formula_value := none
        number_value := none
        string_value := some s }
    formatted_value := some s
    effective_format := none }

/-- A fully absent cell (`CellData::default()`). -/
def blankCell : CellData :=
  { effective_value := none, formatted_value := none, effective_format := none }

/-- A numeric cell whose number format is tagged `DATE`. -/
def dateCell : CellData :=
  { effective_value := some
      { bool_value := none
        error_value := none
        formula_value := none
        number_value := some 45000.0
        string_value := none }
    formatted_value := some "2024-01-01"
    effective_format := some { number_format := some { pattern := none, type_ := some "DATE" } } }

/-- A numeric cell whose number format is tagged `NUMBER` (not a date). -/
def numCell : CellData :=
  { effective_value := some
      { bool_value := none
        error_value := none
        formula_value := none
        number_value := some 42.0
        string_value := none }
    formatted_value := some "42"
    effective_format := some { number_format := some { pattern := none, type_ := some "NUMBER" } } }

/-- Grid whose middle header column is unnamed: headers `a`, blank, `c`,
over one fully populated data row. -/
def gUnnamedMiddle : GridData :=
  { row_data := some
      [ { values := some [strCell "a", blankCell, strCell "c"] }
      , { values := some [strCell "x", strCell "y", strCell "z"] } ] }

/-- Deserializer state whose current data row is a single populated cell,
with the column pointer unset. -/
def dRowPopulated : Deserializer :=
  { rows := [{ values := some [strCell "x"] }]
    types := [some "a"]
    key_idx := none
    row_idx := 1
    cur_type := none
    parsing_enum := false }

/-- Same grid position as `dRowPopulated` but with the column pointer on the
populated cell. -/
def dCellPopulated : Deserializer :=
  { rows := [{ values := some [strCell "x"] }]
    types := [some "a"]
    key_idx := some 0
    row_idx := 1
    cur_type := some "a"
    parsing_enum := false }

/-- Deserializer state whose current data row is a single absent cell, with
the column pointer unset. -/
def dRowBlank : Deserializer :=
  { rows := [{ values := some [blankCell] }]
    types := [some "a"]
    key_idx := none
    row_idx := 1
    cur_type := none
    parsing_enum := false }

/-- Grid whose header row has no cells, over one blank data row. -/
def gEmptyHeader : GridData :=
  { row_data := some [{ values := some [] }, { values := some [blankCell] }] }

/-- The deserializer state `from_grid_data_init` builds from
`gEmptyHeader`. -/
def dEmptyHeader : Deserializer :=
  { rows := [{ values := some [blankCell] }]
    types := []
    key_idx := none
    row_idx := 1
    cur_type := none
    parsing_enum := false }

/-- Grid consisting of only a header row. -/
def gHeaderOnly : GridData :=
  { row_data := some [{ values := some [strCell "col1"] }] }

/-- The deserializer state `from_grid_data_init` builds from
`gHeaderOnly`: no data rows remain. -/
def dHeaderOnly : Deserializer :=
  { rows := []
    types := [some "col1"]
    key_idx := none
    row_idx := 1
    cur_type := none
    parsing_enum := false }

/-- Grid whose only row carries no cell list at all. -/
def gNoValues : GridData := { row_data := some [{ values := none }] }

/-- Deserializer state whose current row carries no cell list. -/
def dNoValues : Deserializer :=
  { rows := [{ values := none }]
    types := [some "a"]
    key_idx := none
    row_idx := 1
    cur_type := none
    parsing_enum := false }

/-- State for the date-formatted numeric cell, column pointer on it. -/
def dDate : Deserializer :=
  { rows := [{ values := some [dateCell] }]
    types := [some "when"]
    key_idx := some 0
    row_idx := 1
    cur_type := some "when"
    parsing_enum := false }

/-- State for the plain numeric cell, column pointer on it. -/
def dNum : Deserializer :=
  { rows := [{ values := some [numCell] }]
    types := [some "amount"]
    key_idx := some 0
    row_idx := 1
    cur_type := some "amount"
    parsing_enum := false }

/-- State used to interrogate the enum variant accessors. -/
def dEnum : Deserializer :=
  { rows := [{ values := some [strCell "VariantA"] }]
    types := [some "kind"]
    key_idx := some 0
    row_idx := 1
    cur_type := some "kind"
    parsing_enum := false }

/-- State whose header names column 0 but not column 1, column pointer on
column 0, over a fully populated two-cell data row. -/
def dUnnamedNext : Deserializer :=
  { rows := [{ values := some [strCell "x", strCell "y"] }]
    types := [some "a", none]
    key_idx := some 0
    row_idx := 1
    cur_type := some "a"
    parsing_enum := false }

/-- A two-data-row deserializer state for sequence decoding. -/
def dTwoRows : Deserializer :=
  { rows := [{ values := some [strCell "v1"] }, { values := some [strCell "v2"] }]
    types := [some "col1"]
    key_idx := none
    row_idx := 1
    cur_type := none
    parsing_enum := false }

/-- The state left after `dTwoRows` is exhausted by sequence decoding with a
row-preserving element seed. -/
def dTwoRowsFinal : Deserializer :=
  { rows := []
    types := [some "col1"]
    key_idx := none
    row_idx := 3
    cur_type := none
    parsing_enum := false }

/-- The trivial element seed: decodes every row to `()` without touching the
deserializer. -/
def elemU : Deserializer → RResult (Unit × Deserializer) := fun d => .ok ((), d)

/-!  Theorems.  Helper lemmas first, then one theorem (plus witness or
counterexample) per specification claim. -/

/-- Fuel can run out only at an index at or past the bound, where the Rust
loop condition is false as well, so `scanIdx` agrees with the unbounded
`while` loop of `next_key_seed`. -/
theorem scanLoop_stops (types : List (Option String)) (bound : Nat) :
    ∀ fuel i, bound - i < fuel →
      ¬((types[scanLoop types bound fuel i]?).isNone = true ∧
        scanLoop types bound fuel i < bound) := by
  intro fuel
  induction fuel with
  | zero => intro i h; omega
  | succ n ih =>
    intro i h
    by_cases hc : (types[i]?).isNone = true ∧ i < bound
    · rw [scanLoop, if_pos hc]
      exact ih (i + 1) (by omega)
    · rw [scanLoop, if_neg hc]
      exact hc

/-- When the scan starts at an index present in the header map, it stops
immediately (the loop condition is false at once). -/
theorem scanIdx_of_isSome (types : List (Option String)) (bound i : Nat)
    (h : (types[i]?).isSome = true) : scanIdx types bound i = i := by
  unfold scanIdx
  have hcond : ¬((types[i]?).isNone = true ∧ i < bound) := by
    intro hc
    rw [Option.isNone_iff_eq_none] at hc
    rw [hc.1] at h
    simp at h
  rw [show bound - i + 1 = (bound - i) + 1 from rfl, scanLoop, if_neg hcond]

/-- When the scan starts at or past the bound, it stops immediately. -/
theorem scanIdx_of_ge (types : List (Option String)) (bound i : Nat)
    (h : bound ≤ i) : scanIdx types bound i = i := by
  unfold scanIdx
  rw [Nat.sub_eq_zero_of_le h, scanLoop]
  simp [Nat.not_lt_of_le h]

/-- When the current row exists and its cell list is set, `peekRow` returns
the cells. -/
theorem peekRow_eq (d : Deserializer) (r : RowData) (row : List CellData)
    (hr : d.rows.head? = some r) (hv : r.values = some row) :
    peekRow d = .ok (some row) := by
  simp [peekRow, hr, hv]

/-- When the current row exists and its cell list is set,
`get_cur_row_data` returns the cells. -/
theorem get_cur_row_data_eq (d : Deserializer) (r : RowData) (row : List CellData)
    (hr : d.rows.head? = some r) (hv : r.values = some row) :
    get_cur_row_data d = .ok row := by
  simp [get_cur_row_data, peekRow_eq d r row hr hv, RResult.bind]

/-- With the column pointer on column `i` of a well-formed current row, the
current effective value is that of cell `i` (or absent when the row is too
short). -/
theorem get_cur_effective_value_eq (d : Deserializer) (r : RowData)
    (row : List CellData) (i : Nat) (hr : d.rows.head? = some r)
    (hv : r.values = some row) (hk : d.key_idx = some i) :
    get_cur_effective_value d
      = .ok ((row[i]?).bind (fun c => c.effective_value)) := by
  simp [get_cur_effective_value, get_cur_cell_data, hk,
    get_cur_row_data_eq d r row hr hv, RResult.map]

/-- The Rust `fold(true, |acc, cell| acc & cell.effective_value.is_none())`
over a row is `true` exactly when every cell of the row is absent. -/
theorem foldl_absent_iff (row : List CellData) :
    (row.foldl (fun acc c => acc && c.effective_value.isNone) true = true)
      ↔ ∀ c ∈ row, c.effective_value = none := by
  have hgen : ∀ (l : List CellData) (b : Bool),
      l.foldl (fun acc c => acc && c.effective_value.isNone) b
        = (b && l.all (fun c => c.effective_value.isNone)) := by
    intro l
    induction l with
    | nil => intro b; simp
    | cons c cs ih => intro b; simp [List.foldl_cons, List.all_cons, ih, Bool.and_assoc]
  rw [hgen]
  simp [List.all_eq_true, Option.isNone_iff_eq_none]

/-- C8: a grid whose row list is absent or empty fails immediately with
`ZeroRows` in the setup phase of `from_grid_data`, before any decoding
starts. -/
theorem c8_zero_rows (g : GridData)
    (h : g.row_data = none ∨ g.row_data = some []) :
    from_grid_data_init g = .error .ZeroRows := by
  rcases h with h | h <;> simp [from_grid_data_init, h]

theorem c8_zero_rows_witness :
    from_grid_data_init { row_data := none } = .error .ZeroRows :=
  c8_zero_rows { row_data := none } (Or.inl rfl)

/-- C7 counterexample: the claim says tuple- and struct-shaped variant
requests fail with a dedicated `UnsupportedVariant` error, but the `Error`
taxonomy of src/error.rs has no such variant; the code fails through the
catch-all custom-message error (`Error::Message`, built by
`de::Error::custom`). -/
theorem c7_counterexample :
    tuple_variant dEnum = .error (.Message "Tuple variant not supported") ∧
    struct_variant dEnum = .error (.Message "Struct variant not supported") :=
  ⟨rfl, rfl⟩

/-- C7 (amended): requesting a tuple- or struct-shaped variant payload fails
with the catch-all custom-message error (`Message "Tuple variant not
supported"` / `Message "Struct variant not supported"`); the value-less unit
variant succeeds. -/
theorem c7_variant_payloads (d : Deserializer) :
    tuple_variant d = .error (.Message "Tuple variant not supported") ∧
    struct_variant d = .error (.Message "Struct variant not supported") ∧
    unit_variant d = .ok () :=
  ⟨rfl, rfl, rfl⟩

/-- C6 counterexample: `dRowPopulated` is a row with a populated cell and
the column pointer unset, yet a unit decode succeeds, refuting "for every
row that still has any populated cell, a unit decode returns an error"
(`get_cur_effective_value` short-circuits to absent when `key_idx` is
`None`, never inspecting the row). -/
theorem c6_counterexample :
    deserialize_unit dRowPopulated = .ok (.visitUnit, dRowPopulated) := rfl

/-- C6 (amended): a unit decode fails (with `ZeroRows`) exactly when the
column pointer addresses a populated cell of the current row; with the
column pointer unset it succeeds regardless of the row contents, and with
the pointer on an absent (or out-of-range) cell it succeeds as well. -/
theorem c6_unit_cell (d : Deserializer) (r : RowData) (row : List CellData)
    (hr : d.rows.head? = some r) (hv : r.values = some row) :
    (d.key_idx = none → deserialize_unit d = .ok (.visitUnit, d)) ∧
    (∀ i, d.key_idx = some i →
      ((row[i]?).bind (fun c => c.effective_value)).isSome = true →
      deserialize_unit d = .error .ZeroRows) ∧
    (∀ i, d.key_idx = some i →
      (row[i]?).bind (fun c => c.effective_value) = none →
      deserialize_unit d = .ok (.visitUnit, d)) := by
  refine ⟨fun hk => ?_, fun i hk hcell => ?_, fun i hk hcell => ?_⟩
  · simp [deserialize_unit, get_cur_effective_value, get_cur_cell_data, hk,
      RResult.map, RResult.bind]
  · rcases Option.isSome_iff_exists.mp hcell with ⟨ev, hev⟩
    simp [deserialize_unit, get_cur_effective_value_eq d r row i hr hv hk,
      hev, RResult.bind]
  · simp [deserialize_unit, get_cur_effective_value_eq d r row i hr hv hk,
      hcell, RResult.bind]

theorem c6_unit_cell_witness :
    deserialize_unit dCellPopulated = .error .ZeroRows ∧
    deserialize_unit dRowBlank = .ok (.visitUnit, dRowBlank) :=
  ⟨(c6_unit_cell dCellPopulated { values := some [strCell "x"] } [strCell "x"]
      rfl rfl).2.1 0 rfl rfl,
   (c6_unit_cell dRowBlank { values := some [blankCell] } [blankCell]
      rfl rfl).1 rfl⟩

/-- C10: a row whose cell list is absent makes the decoder panic with the
`expect` message "Values should be set" — in the setup phase when it is the
header row, and at the peek that reaches it during sequence decoding when it
is a data row — rather than returning any `Error` value. -/
theorem c10_values_unset_panics :
    (∀ (g : GridData) (r0 : RowData) (rest : List RowData),
      g.row_data = some (r0 :: rest) → r0.values = none →
      from_grid_data_init g = .panicked "Values should be set") ∧
    (∀ (d : Deserializer) (r : RowData), d.rows.head? = some r →
      r.values = none →
      get_cur_row_data d = .panicked "Values should be set" ∧
      (∀ (α : Type) (elem : Deserializer → RResult (α × Deserializer)),
        next_element_seed elem d = .panicked "Values should be set")) := by
  constructor
  · intro g r0 rest hg hv
    simp [from_grid_data_init, hg, hv]
  · intro d r hr hv
    have hpeek : peekRow d = .panicked "Values should be set" := by
      simp [peekRow, hr, hv]
    exact ⟨by simp [get_cur_row_data, hpeek, RResult.bind],
      fun α elem => by simp [next_element_seed, hpeek, RResult.bind]⟩

theorem c10_values_unset_panics_witness :
    from_grid_data_init gNoValues = .panicked "Values should be set" ∧
    get_cur_row_data dNoValues = .panicked "Values should be set" ∧
    next_element_seed elemU dNoValues = .panicked "Values should be set" := by
  have h2 := c10_values_unset_panics.2 dNoValues { values := none } rfl rfl
  exact ⟨c10_values_unset_panics.1 gNoValues { values := none } [] rfl rfl,
    h2.1, h2.2 Unit elemU⟩

/-- C9: on a grid consisting of only the header row, the setup succeeds with
no data rows left, and every row-level (non-sequence) decode — map/struct
key iteration, row-level option — panics in `get_cur_row_data` with the
`expect` message "Need current row data with no selected row" instead of
returning a decode error; only sequence decoding reports a graceful
end-of-sequence. -/
theorem c9_header_only_panics (g : GridData) (r0 : RowData)
    (hdr : List CellData) (d : Deserializer) (hg : g.row_data = some [r0])
    (hv : r0.values = some hdr) (hinit : from_grid_data_init g = .ok d) :
    d.rows = [] ∧
    next_key_seed d = .panicked "Need current row data with no selected row" ∧
    deserialize_option d = .panicked "Need current row data with no selected row" ∧
    (∀ (α : Type) (elem : Deserializer → RResult (α × Deserializer)),
      next_element_seed elem d = .ok (none, d)) := by
  simp [from_grid_data_init, hg, hv] at hinit
  subst hinit
  refine ⟨rfl, ?_, ?_, fun α elem => ?_⟩
  · simp [next_key_seed, get_cur_row_data, peekRow, RResult.bind]
  · simp [deserialize_option, get_cur_row_data, peekRow, RResult.bind]
  · simp [next_element_seed, peekRow, RResult.bind]

theorem c9_header_only_panics_witness :
    dHeaderOnly.rows = [] ∧
    next_key_seed dHeaderOnly
      = .panicked "Need current row data with no selected row" ∧
    deserialize_option dHeaderOnly
      = .panicked "Need current row data with no selected row" ∧
    next_element_seed elemU dHeaderOnly = .ok (none, dHeaderOnly) := by
  have h := c9_header_only_panics gHeaderOnly { values := some [strCell "col1"] }
    [strCell "col1"] dHeaderOnly rfl rfl rfl
  exact ⟨h.1, h.2.1, h.2.2.1, h.2.2.2 Unit elemU⟩

/-- On any state with an empty header map, `next_key_seed` reports end of
map: whatever index the (wrapping-bound) scan loop lands on, it either fails
the row bound check or misses the empty header map, and both paths return
`Ok(None)`. -/
theorem next_key_seed_empty_types (d : Deserializer) (r : RowData)
    (row : List CellData) (hr : d.rows.head? = some r)
    (hv : r.values = some row) (ht : d.types = []) :
    next_key_seed d = .ok (none, d) := by
  have hrow := get_cur_row_data_eq d r row hr hv
  unfold next_key_seed
  rw [hrow]
  simp only [RResult.bind]
  split
  · rfl
  · rw [ht]
    simp

/-- C5: a grid whose header row has no cells yields an empty header map in
the setup phase, and map/struct decoding of a data row then reports "no more
keys" at once rather than an error (in release-mode `usize` semantics the
scan bound `types.len() - 1` wraps, and every scanned index misses both the
row bound check and the header map, so both paths return `Ok(None)`). -/
theorem c5_empty_header (g : GridData) (r0 r1 : RowData) (rest : List RowData)
    (row : List CellData) (d : Deserializer)
    (hg : g.row_data = some (r0 :: r1 :: rest)) (h0 : r0.values = some [])
    (h1 : r1.values = some row) (hinit : from_grid_data_init g = .ok d) :
    d.types = [] ∧ next_key_seed d = .ok (none, d) := by
  simp [from_grid_data_init, hg, h0] at hinit
  subst hinit
  exact ⟨rfl, next_key_seed_empty_types _ r1 row rfl h1 rfl⟩

theorem c5_empty_header_witness :
    dEmptyHeader.types = [] ∧
    next_key_seed dEmptyHeader = .ok (none, dEmptyHeader) :=
  c5_empty_header gEmptyHeader { values := some [] } { values := some [blankCell] }
    [] [blankCell] dEmptyHeader rfl rfl rfl rfl

/-- C2: at row granularity (column pointer unset) an option decode visits
`None` exactly when every cell of the current row is absent, and visits
`Some` (re-offering the same state) otherwise; at field granularity (column
pointer on column `i`) it visits `None` exactly when cell `i` is absent and
`Some` exactly when cell `i` carries an effective value. -/
theorem c2_option_granularity (d : Deserializer) (r : RowData)
    (row : List CellData) (hr : d.rows.head? = some r)
    (hv : r.values = some row) :
    (d.key_idx = none →
      ((deserialize_option d = .ok (.visitNone, d))
        ↔ ∀ c ∈ row, c.effective_value = none) ∧
      ((deserialize_option d = .ok (.visitSome, d))
        ↔ ¬ ∀ c ∈ row, c.effective_value = none)) ∧
    (∀ i, d.key_idx = some i →
      ((deserialize_option d = .ok (.visitNone, d))
        ↔ (row[i]?).bind (fun c => c.effective_value) = none) ∧
      ((deserialize_option d = .ok (.visitSome, d))
        ↔ ((row[i]?).bind (fun c => c.effective_value)).isSome = true)) := by
  have hrow := get_cur_row_data_eq d r row hr hv
  constructor
  · intro hk
    by_cases hf : row.foldl (fun acc c => acc && c.effective_value.isNone) true = true
    · have hopt : deserialize_option d = .ok (.visitNone, d) := by
        simp [deserialize_option, hk, hrow, RResult.bind, hf]
      have hall := (foldl_absent_iff row).mp hf
      rw [hopt]
      exact ⟨iff_of_true rfl hall, iff_of_false (by simp) (not_not_intro hall)⟩
    · have hopt : deserialize_option d = .ok (.visitSome, d) := by
        simp [deserialize_option, hk, hrow, RResult.bind, hf]
      have hnall : ¬ ∀ c ∈ row, c.effective_value = none :=
        fun hall => hf ((foldl_absent_iff row).mpr hall)
      rw [hopt]
      exact ⟨iff_of_false (by simp) hnall, iff_of_true rfl hnall⟩
  · intro i hk
    have heff := get_cur_effective_value_eq d r row i hr hv hk
    cases hcell : (row[i]?).bind (fun c => c.effective_value) with
    | none =>
      have hopt : deserialize_option d = .ok (.visitNone, d) := by
        simp [deserialize_option, hk, heff, hcell, RResult.bind]
      rw [hopt]
      exact ⟨iff_of_true rfl rfl, iff_of_false (by simp) (by simp)⟩
    | some ev =>
      have hopt : deserialize_option d = .ok (.visitSome, d) := by
        simp [deserialize_option, hk, heff, hcell, RResult.bind]
      rw [hopt]
      exact ⟨iff_of_false (by simp) (by simp), iff_of_true rfl rfl⟩

theorem c2_option_granularity_witness :
    deserialize_option dRowBlank = .ok (.visitNone, dRowBlank) ∧
    deserialize_option dCellPopulated = .ok (.visitSome, dCellPopulated) := by
  have hblank := c2_option_granularity dRowBlank { values := some [blankCell] }
    [blankCell] rfl rfl
  have hcell := c2_option_granularity dCellPopulated
    { values := some [strCell "x"] } [strCell "x"] rfl rfl
  exact ⟨(hblank.1 rfl).1.mpr (by
      intro c hc
      rw [List.mem_singleton] at hc
      subst hc
      rfl),
    ((hcell.2 0 rfl).2).mpr rfl⟩

/-- C4: an untyped (`deserialize_any`) decode of a populated cell whose raw
value is numeric (and which carries no boolean/error/formula value, the
fields checked earlier in the precedence order) yields the cell's formatted
display text when the number-format tag is `DATE`, `TIME` or `DATE_TIME`,
and the raw 64-bit float for any other tag or no tag at all. -/
theorem c4_numeric_date_precedence (d : Deserializer) (i : Nat) (r : RowData)
    (row : List CellData) (cell : CellData) (ev : ExtendedValue) (v : Float)
    (hk : d.key_idx = some i) (hr : d.rows.head? = some r)
    (hv : r.values = some row) (hcell : row[i]? = some cell)
    (hev : cell.effective_value = some ev) (hb : ev.bool_value = none)
    (herr : ev.error_value = none) (hform : ev.formula_value = none)
    (hn : ev.number_value = some v) :
    (∀ t s, ((cell.effective_format.bind (fun f => f.number_format)).bind
        (fun nf => nf.type_)) = some t →
      (t = "DATE" ∨ t = "TIME" ∨ t = "DATE_TIME") →
      cell.formatted_value = some s →
      deserialize_any d = .ok (.visitStr s, d)) ∧
    (∀ t, ((cell.effective_format.bind (fun f => f.number_format)).bind
        (fun nf => nf.type_)) = some t →
      ¬(t = "DATE" ∨ t = "TIME" ∨ t = "DATE_TIME") →
      deserialize_any d = .ok (.visitF64 v, d)) ∧
    (((cell.effective_format.bind (fun f => f.number_format)).bind
        (fun nf => nf.type_)) = none →
      deserialize_any d = .ok (.visitF64 v, d)) := by
  have hrow := get_cur_row_data_eq d r row hr hv
  have hcur : get_cur_cell_data d = .ok (some cell) := by
    simp [get_cur_cell_data, hk, hrow, RResult.map, hcell]
  have heff : get_cur_effective_value d = .ok (some ev) := by
    simp [get_cur_effective_value, hcur, RResult.map, hev]
  refine ⟨fun t s ht htag hfmt => ?_, fun t ht htag => ?_, fun ht => ?_⟩
  · have hfv : deserialize_formatted_value d = .ok s := by
      simp [deserialize_formatted_value, hcur, RResult.bind, hfmt]
    simp [deserialize_any, hk, heff, hb, herr, hform, hn, hcur,
      RResult.bind, RResult.map, ht, htag, hfv]
  · simp [deserialize_any, hk, heff, hb, herr, hform, hn, hcur,
      RResult.bind, RResult.map, ht, htag]
  · simp [deserialize_any, hk, heff, hb, herr, hform, hn, hcur,
      RResult.bind, RResult.map, ht]

theorem c4_numeric_date_precedence_witness :
    deserialize_any dDate = .ok (.visitStr "2024-01-01", dDate) ∧
    deserialize_any dNum = .ok (.visitF64 42.0, dNum) := by
  have hdate := c4_numeric_date_precedence dDate 0 { values := some [dateCell] }
    [dateCell] dateCell
    { bool_value := none
      error_value := none
      formula_value := none
      number_value := some 45000.0
      string_value := none }
    45000.0 rfl rfl rfl rfl rfl rfl rfl rfl rfl
  have hnum := c4_numeric_date_precedence dNum 0 { values := some [numCell] }
    [numCell] numCell
    { bool_value := none
      error_value := none
      formula_value := none
      number_value := some 42.0
      string_value := none }
    42.0 rfl rfl rfl rfl rfl rfl rfl rfl rfl
  exact ⟨hdate.1 "DATE" "2024-01-01" rfl (Or.inl rfl) rfl,
    hnum.2.1 "NUMBER" rfl (by decide)⟩

/-- C1 counterexample: on the grid whose headers are `a`, (unnamed), `c`,
record decoding yields only the key `a` — the unnamed middle column makes
`next_key_seed` return `Ok(None)` (its scan loop tests only map presence,
and the match arm for a present-but-unnamed entry ends the map) — so the
later named column `c` is NOT reported, refuting "later named columns are
still reported". -/
theorem c1_counterexample : keysOf gUnnamedMiddle 5 = .ok ["a"] := rfl

/-- C1 (amended): a header column with no formatted text never yields a key
(every yielded key carries the header name of its own column position, so
column positions stay stable), but rather than being skipped it terminates
map iteration: when the scan start lands on an in-range unnamed column,
`next_key_seed` reports end of map, so later named columns are not
reported. -/
theorem c1_header_skip :
    (∀ (d : Deserializer) (k : String) (d' : Deserializer),
      d.parsing_enum = false → next_key_seed d = .ok (some k, d') →
      ∃ j, d'.key_idx = some j ∧ d.types[j]? = some (some k)) ∧
    (∀ (d : Deserializer) (r : RowData) (row : List CellData),
      d.rows.head? = some r → r.values = some row →
      d.types[nextKeyStart d]? = some none → nextKeyStart d < row.length →
      next_key_seed d = .ok (none, d)) := by
  constructor
  · intro d k d' hpe h
    simp only [next_key_seed] at h
    rcases hrow : get_cur_row_data d with m | e | row <;> rw [hrow] at h <;>
      simp only [RResult.bind] at h
    · cases h
    · cases h
    · split at h
      · cases h
      · rcases hty : d.types[scanIdx d.types (usizeSub1 d.types.length)
            (nextKeyStart d)]? with _ | ov
        · rw [hty] at h
          cases h
        · rw [hty] at h
          rcases ov with _ | v
          · cases h
          · simp only [deserialize_identifier, hpe, RResult.map] at h
            simp only [Bool.false_eq_true, if_false] at h
            rcases h with ⟨hk, hd⟩
            exact ⟨scanIdx d.types (usizeSub1 d.types.length) (nextKeyStart d),
              rfl, hty⟩
  · intro d r row hr hv hty hlt
    have hrow := get_cur_row_data_eq d r row hr hv
    have hscan : scanIdx d.types (usizeSub1 d.types.length) (nextKeyStart d)
        = nextKeyStart d :=
      scanIdx_of_isSome _ _ _ (by rw [hty]; rfl)
    simp only [next_key_seed, hrow, RResult.bind, hscan]
    rw [if_neg (by omega), hty]

theorem c1_header_skip_witness :
    next_key_seed dUnnamedNext = .ok (none, dUnnamedNext) :=
  c1_header_skip.2 dUnnamedNext { values := some [strCell "x", strCell "y"] }
    [strCell "x", strCell "y"] rfl rfl rfl (by decide)

/-- With no rows left, `next_element_seed` reports end-of-sequence without
error and without state change. -/
theorem next_element_seed_of_nil {α : Type}
    (elem : Deserializer → RResult (α × Deserializer)) (d : Deserializer)
    (h : d.rows = []) : next_element_seed elem d = .ok (none, d) := by
  have hh : d.rows.head? = none := by rw [h]; rfl
  simp [next_element_seed, peekRow, hh, RResult.bind]

/-- Computation of `next_element_seed` on a present row with a set cell
list. -/
theorem next_element_seed_cons {α : Type}
    (elem : Deserializer → RResult (α × Deserializer)) (d : Deserializer)
    (r : RowData) (rest : List RowData) (vs : List CellData)
    (hrows : d.rows = r :: rest) (hv : r.values = some vs) :
    next_element_seed elem d =
      match elem { d with key_idx := none, cur_type := none } with
      | .panicked m => .panicked m
      | .error e => .error e
      | .ok (a, d2) =>
        .ok (some a, { d2 with rows := d2.rows.drop 1, row_idx := d2.row_idx + 1 }) := by
  have hh : d.rows.head? = some r := by rw [hrows]; rfl
  simp [next_element_seed, peekRow, hh, hv, RResult.bind]

/-- Inversion: an end-of-sequence answer only arises with no rows left and
an unchanged state. -/
theorem next_element_seed_ok_none {α : Type}
    {elem : Deserializer → RResult (α × Deserializer)} {d d' : Deserializer}
    (h : next_element_seed elem d = .ok (none, d')) :
    d.rows = [] ∧ d' = d := by
  rcases hrows : d.rows with _ | ⟨r, rest⟩
  · rw [next_element_seed_of_nil elem d hrows] at h
    refine ⟨rfl, ?_⟩
    injection h with h1
    injection h1 with h2 h3
    exact h3.symm
  · rcases hv : r.values with _ | vs
    · have hh : d.rows.head? = some r := by rw [hrows]; rfl
      simp [next_element_seed, peekRow, hh, hv, RResult.bind] at h
    · rw [next_element_seed_cons elem d r rest vs hrows hv] at h
      rcases helem : elem { d with key_idx := none, cur_type := none } with
        m | e | ⟨a, d2⟩ <;> simp [helem] at h

/-- Inversion: a yielded element arises exactly from a present row with a
set cell list, a successful element decode on the key-reset state, and a
one-row advance of the iterator. -/
theorem next_element_seed_ok_some {α : Type}
    {elem : Deserializer → RResult (α × Deserializer)} {d : Deserializer}
    {a : α} {d' : Deserializer}
    (h : next_element_seed elem d = .ok (some a, d')) :
    ∃ r rest vs d2, d.rows = r :: rest ∧ r.values = some vs ∧
      elem { d with key_idx := none, cur_type := none } = .ok (a, d2) ∧
      d' = { d2 with rows := d2.rows.drop 1, row_idx := d2.row_idx + 1 } := by
  rcases hrows : d.rows with _ | ⟨r, rest⟩
  · rw [next_element_seed_of_nil elem d hrows] at h
    injection h with h1
    injection h1 with h2 h3
    cases h2
  · rcases hv : r.values with _ | vs
    · have hh : d.rows.head? = some r := by rw [hrows]; rfl
      simp [next_element_seed, peekRow, hh, hv, RResult.bind] at h
    · rw [next_element_seed_cons elem d r rest vs hrows hv] at h
      rcases helem : elem { d with key_idx := none, cur_type := none } with
        m | e | ⟨b, d2⟩ <;> simp [helem] at h
      obtain ⟨hb, hd⟩ := h
      have helem2 := helem
      rw [hrows] at helem2
      refine ⟨r, rest, vs, d2, rfl, hv, by rw [helem2, hb], ?_⟩
      rw [List.drop_one]
      exact hd.symm

/-- C3: whenever sequence decoding (driving `next_element_seed` with any
element seed that leaves the row iterator alone, as one-row record decoding
does) succeeds on a state with N remaining data rows, it yields exactly N
elements, one per data row in order — the i-th element is decoded from the
state whose current row is the i-th remaining row, with the column pointer
reset — leaves no row unconsumed and none revisited, and a further request
reports end-of-sequence, never an error. -/
theorem c3_sequence_exhaustion {α : Type}
    (elem : Deserializer → RResult (α × Deserializer))
    (hpres : ∀ d a d2, elem d = .ok (a, d2) → d2.rows = d.rows) :
    ∀ (fuel : Nat) (d : Deserializer) (l : List α) (d' : Deserializer),
      d.rows.length < fuel → driveSeq elem fuel d = .ok (l, d') →
      l.length = d.rows.length ∧ d'.rows = [] ∧
      next_element_seed elem d' = .ok (none, d') ∧
      (∀ i (hi : i < l.length), ∃ di d2, di.rows = d.rows.drop i ∧
        di.key_idx = none ∧ di.cur_type = none ∧
        elem di = .ok (l.get ⟨i, hi⟩, d2)) := by
  intro fuel
  induction fuel with
  | zero => intro d l d' hlt; omega
  | succ n ih =>
    intro d l d' hlt hdrive
    rw [driveSeq] at hdrive
    rcases hne : next_element_seed elem d with m | e | ⟨o, dmid⟩
    · rw [hne] at hdrive
      simp at hdrive
    · rw [hne] at hdrive
      simp at hdrive
    · rw [hne] at hdrive
      rcases o with _ | a
      · have h2 : RResult.ok ((([] : List α)), dmid) = RResult.ok (l, d') := hdrive
        injection h2 with h3
        injection h3 with hl hd
        obtain ⟨hrows0, hdm⟩ := next_element_seed_ok_none hne
        have hd2 : d' = d := by rw [← hd, hdm]
        refine ⟨?_, ?_, ?_, ?_⟩
        · rw [← hl, hrows0]
          rfl
        · rw [hd2, hrows0]
        · rw [hd2]
          exact next_element_seed_of_nil elem d hrows0
        · intro i hi
          rw [← hl] at hi
          exact absurd hi (by simp)
      · have h2 : (match driveSeq elem n dmid with
            | .panicked m => RResult.panicked m
            | .error e => RResult.error e
            | .ok (l2, d2f) => RResult.ok (a :: l2, d2f)) = RResult.ok (l, d') := hdrive
        rcases hrec : driveSeq elem n dmid with m | e | ⟨l2, d2f⟩ <;>
          rw [hrec] at h2
        · simp at h2
        · simp at h2
        · have h3 : RResult.ok ((a :: l2), d2f) = RResult.ok (l, d') := h2
          injection h3 with h4
          injection h4 with hl hd
          obtain ⟨r, rest, vs, dmid2, hrows, hvs, helem, hdmid⟩ :=
            next_element_seed_ok_some hne
          have hmidrows : dmid.rows = rest := by
            rw [hdmid]
            have hp := hpres _ _ _ helem
            simp only [hp]
            rw [show ({ d with key_idx := none, cur_type := none } :
              Deserializer).rows = d.rows from rfl, hrows]
            rfl
          have hdlen : d.rows.length = rest.length + 1 := by rw [hrows]; rfl
          have hlen : dmid.rows.length < n := by
            rw [hmidrows]
            omega
          obtain ⟨ih1, ih2, ih3, ih4⟩ := ih dmid l2 d2f hlen hrec
          refine ⟨?_, ?_, ?_, ?_⟩
          · rw [← hl]
            simp only [List.length_cons]
            rw [ih1, hmidrows]
            omega
          · rw [← hd]
            exact ih2
          · rw [← hd]
            exact ih3
          · intro i hi
            match i, hi with
            | 0, hi =>
              have hget : l.get ⟨0, hi⟩ = a := by
                subst hl
                rfl
              refine ⟨{ d with key_idx := none, cur_type := none }, dmid2,
                by simp, rfl, rfl, ?_⟩
              rw [hget]
              exact helem
            | i + 1, hi =>
              have hi2 : i < l2.length := by
                have hlen2 : l.length = l2.length + 1 := by
                  subst hl
                  rfl
                omega
              have hget : l.get ⟨i + 1, hi⟩ = l2.get ⟨i, hi2⟩ := by
                subst hl
                rfl
              obtain ⟨di, dx, hx1, hx2, hx3, hx4⟩ := ih4 i hi2
              refine ⟨di, dx, ?_, hx2, hx3, ?_⟩
              · rw [hx1, hmidrows, hrows]
                rfl
              · rw [hget]
                exact hx4


theorem c3_sequence_exhaustion_witness :
    driveSeq elemU 3 dTwoRows = .ok ([(), ()], dTwoRowsFinal) ∧
    ([(), ()] : List Unit).length = dTwoRows.rows.length ∧
    dTwoRowsFinal.rows = [] ∧
    next_element_seed elemU dTwoRowsFinal = .ok (none, dTwoRowsFinal) := by
  have hpres : ∀ d a d2, elemU d = .ok (a, d2) → d2.rows = d.rows := by
    intro d a d2 h
    injection h with h1
    injection h1 with h2 h3
    rw [← h3]
  have h := c3_sequence_exhaustion elemU hpres 3 dTwoRows [(), ()]
    dTwoRowsFinal (by decide) rfl
  exact ⟨rfl, h.1, h.2.1, h.2.2.1⟩

end SerdeSheets
